import Mathlib

/-!
Verification of the micro:bit reaction-time game (`src/main.cpp`) against its
natural-language specification.  The program is embedded shallowly: the
framebuffer routines become pure functions on a byte-buffer model, the
stateful parts (button polling, LED pins, the round loop) become explicit
state passing, and machine bytes are `Nat` values reduced `% 256` at each
store.
-/

namespace MicroBitReaction

/-- Display width in pixels (`#define OLED_WIDTH 128`). -/
def OLED_WIDTH : Nat := 128

/-- Display height in pixels (`#define OLED_HEIGHT 64`). -/
def OLED_HEIGHT : Nat := 64

/-- Threshold reaction time in milliseconds (`#define AVG_RTIME 250`). -/
def AVG_RTIME : Nat := 250

/-- Number of game rounds (`#define NUM_ROUNDS 4`). -/
def NUM_ROUNDS : Nat := 4

/-- Model of the DAL `ManagedBuffer`: a length together with the byte stored
at each index.  `ManagedBuffer buf(n)` zero-initialises its contents. -/
structure ManagedBuffer where
  length : Nat
  byte : Nat → Nat

/-- `ManagedBuffer buf(n)`: a zero-filled buffer of `n` bytes. -/
def ManagedBuffer.create (n : Nat) : ManagedBuffer :=
  ⟨n, fun _ => 0⟩

/-- `buf[i] = v` on a `uint8_t` array: the stored value is truncated to a
byte. -/
def ManagedBuffer.setByte (b : ManagedBuffer) (i v : Nat) : ManagedBuffer :=
  ⟨b.length, fun j => if j = i then v % 256 else b.byte j⟩

@[simp] lemma ManagedBuffer.length_setByte (b : ManagedBuffer) (i v : Nat) :
    (b.setByte i v).length = b.length := rfl

/-- The buffer index written by `drawPixel`: `x + (y >> 3) * OLED_WIDTH + 1`
(src/main.cpp line 49). -/
def pixelByteIndex (x y : Nat) : Nat :=
  x + (y >>> 3) * OLED_WIDTH + 1

/-- `drawPixel` (src/main.cpp lines 45-52): allocates a fresh buffer of
`OLED_WIDTH * OLED_HEIGHT / 8 + 1` bytes, stores the command byte `0x40` at
index 0, and ORs `1 << (x & 7)` into the byte at `pixelByteIndex x y`.
The resulting buffer is what `oled->sendData` transmits. -/
def drawPixel (x y : Nat) : ManagedBuffer :=
  let buf := ManagedBuffer.create (OLED_WIDTH * OLED_HEIGHT / 8 + 1)
  let buf := buf.setByte 0 0x40
  buf.setByte (pixelByteIndex x y)
    (buf.byte (pixelByteIndex x y) ||| (1 <<< (x &&& 7)))

lemma pixelByteIndex_pos (x y : Nat) : 0 < pixelByteIndex x y := by
  unfold pixelByteIndex
  omega

lemma pixelByteIndex_le (x y : Nat) (hx : x < 128) (hy : y < 64) :
    pixelByteIndex x y ≤ 1024 := by
  unfold pixelByteIndex OLED_WIDTH
  rw [Nat.shiftRight_eq_div_pow]
  omega

lemma drawPixel_byte (x y i : Nat) :
    (drawPixel x y).byte i =
      if i = pixelByteIndex x y then 2 ^ (x &&& 7)
      else if i = 0 then 0x40 else 0 := by
  have hlt : x &&& 7 < 8 := Nat.lt_of_le_of_lt Nat.and_le_right (by decide)
  have hpow : 2 ^ (x &&& 7) < 256 := by
    calc 2 ^ (x &&& 7) ≤ 2 ^ 7 := Nat.pow_le_pow_right (by decide) (by omega)
    _ < 256 := by decide
  have hne : pixelByteIndex x y ≠ 0 := Nat.pos_iff_ne_zero.mp (pixelByteIndex_pos x y)
  unfold drawPixel ManagedBuffer.setByte ManagedBuffer.create
  simp only [Nat.one_shiftLeft]
  by_cases h1 : i = pixelByteIndex x y
  · simp only [h1, if_pos rfl, if_neg hne, Nat.zero_or]
    exact Nat.mod_eq_of_lt hpow
  · simp only [if_neg h1]

/-- C1: on the freshly zeroed buffer, `drawPixel x y` (for in-range `x`, `y`)
sets exactly bit `x & 7` of the data byte at index `1 + x + (y >> 3) * 128`,
and every other bit of every data byte (indices 1..1024) stays 0. -/
theorem drawPixel_sets_exactly_one_bit (x y : Nat)
    (hx : x < OLED_WIDTH) (hy : y < OLED_HEIGHT) :
    ((drawPixel x y).byte (1 + x + (y >>> 3) * OLED_WIDTH)).testBit (x &&& 7) = true ∧
    (∀ i b, 1 ≤ i → i ≤ 1024 →
      (i ≠ 1 + x + (y >>> 3) * OLED_WIDTH ∨ b ≠ (x &&& 7)) →
      ((drawPixel x y).byte i).testBit b = false) := by
  have hidx : 1 + x + (y >>> 3) * OLED_WIDTH = pixelByteIndex x y := by
    unfold pixelByteIndex; omega
  constructor
  · rw [hidx, drawPixel_byte, if_pos rfl]
    exact Nat.testBit_two_pow_self
  · intro i b hi1 hi2 hne
    rw [drawPixel_byte]
    rcases hne with hne | hne
    · rw [hidx] at hne
      rw [if_neg hne, if_neg (by omega)]
      exact Nat.zero_testBit b
    · by_cases hip : i = pixelByteIndex x y
      · rw [if_pos hip]
        exact Nat.testBit_two_pow_of_ne (fun h => hne h.symm)
      · rw [if_neg hip, if_neg (by omega)]
        exact Nat.zero_testBit b

/-- Witness for C1 at the spec's own example `setPixel(buf, 5, 0)`: byte
index `6`, bit `5` is set, and (as an instance of the second conjunct) byte
index `7` carries no bit. -/
theorem drawPixel_sets_exactly_one_bit_witness :
    ((drawPixel 5 0).byte (1 + 5 + (0 >>> 3) * OLED_WIDTH)).testBit (5 &&& 7) = true ∧
    ((drawPixel 5 0).byte 7).testBit 5 = false := by
  have h := drawPixel_sets_exactly_one_bit 5 0 (by decide) (by decide)
  exact ⟨h.1, h.2 7 5 (by decide) (by decide) (by left; decide)⟩

/-- The body of the fill loop in `displayHexImage`
(`for (int i = 1; i < buf.length(); i++) buf[i] = hexValue;`), unrolled by
iteration count: `fillCount v b i n` performs `n` further iterations starting
at index `i`.  The loop runs `buf.length() - 1` iterations from `i = 1`. -/
def fillCount (v : Nat) : ManagedBuffer → Nat → Nat → ManagedBuffer
  | b, _, 0 => b
  | b, i, n + 1 => fillCount v (b.setByte i v) (i + 1) n

/-- `displayHexImage` (src/main.cpp lines 62-71): allocates a fresh buffer of
`OLED_WIDTH * OLED_HEIGHT / 8 + 1` bytes, stores the command byte `0x40` at
index 0, and writes `hexValue` to every index from 1 up to
`buf.length() - 1`.  The resulting buffer is what `oled->sendData`
transmits. -/
def displayHexImage (hexValue : Nat) : ManagedBuffer :=
  let buf := ManagedBuffer.create (OLED_WIDTH * OLED_HEIGHT / 8 + 1)
  let buf := buf.setByte 0 0x40
  fillCount hexValue buf 1 (buf.length - 1)

/-- Model of one `oled->sendData(buf.getBytes(), buf.length())` call: the
byte payload together with the transmitted length. -/
structure Transfer where
  bytes : Nat → Nat
  len : Nat

/-- `sendData` packages a buffer verbatim into a single transfer. -/
def sendData (b : ManagedBuffer) : Transfer :=
  ⟨b.byte, b.length⟩

/-- The list of peripheral transfers performed by one `drawPixel` call:
exactly one `sendData` of the built buffer (src/main.cpp line 51). -/
def drawPixelTransfers (x y : Nat) : List Transfer :=
  [sendData (drawPixel x y)]

/-- The list of peripheral transfers performed by one `displayHexImage`
call: exactly one `sendData` of the built buffer (src/main.cpp line 70). -/
def displayHexImageTransfers (v : Nat) : List Transfer :=
  [sendData (displayHexImage v)]

lemma fillCount_length (v : Nat) :
    ∀ (b : ManagedBuffer) (i n : Nat), (fillCount v b i n).length = b.length := by
  intro b i n
  induction n generalizing b i with
  | zero => rfl
  | succ n ih => rw [fillCount, ih]; rfl

lemma fillCount_byte (v : Nat) :
    ∀ (n : Nat) (b : ManagedBuffer) (i j : Nat),
      (fillCount v b i n).byte j =
        if i ≤ j ∧ j < i + n then v % 256 else b.byte j := by
  intro n
  induction n with
  | zero =>
    intro b i j
    rw [fillCount, if_neg (by omega)]
  | succ n ih =>
    intro b i j
    rw [fillCount, ih]
    simp only [ManagedBuffer.setByte]
    split_ifs with h1 h2 h3 h4 <;> first | rfl | omega

lemma displayHexImage_byte (v i : Nat) :
    (displayHexImage v).byte i =
      if 1 ≤ i ∧ i ≤ 1024 then v % 256
      else if i = 0 then 0x40 else 0 := by
  unfold displayHexImage
  rw [fillCount_byte]
  simp only [ManagedBuffer.setByte, ManagedBuffer.create]
  norm_num [OLED_WIDTH, OLED_HEIGHT]
  split_ifs with h1 h2 h3 h4 <;> first | rfl | omega

lemma displayHexImage_length (v : Nat) :
    (displayHexImage v).length = OLED_WIDTH * OLED_HEIGHT / 8 + 1 := by
  unfold displayHexImage
  rw [fillCount_length]
  rfl

/-- C2: each draw operation builds and transmits one buffer of
`OLED_WIDTH * OLED_HEIGHT / 8 + 1 = 1025` bytes whose first byte is the
command byte `0x40`, and the single transfer sent to the peripheral carries
that whole buffer together with its full length. -/
theorem draw_operations_transfer_full_1025_byte_buffer (x y v : Nat) :
    (drawPixel x y).length = OLED_WIDTH * OLED_HEIGHT / 8 + 1 ∧
    (drawPixel x y).length = 1025 ∧
    (drawPixel x y).byte 0 = 0x40 ∧
    (drawPixelTransfers x y).length = 1 ∧
    (drawPixelTransfers x y).head? = some ⟨(drawPixel x y).byte, (drawPixel x y).length⟩ ∧
    (displayHexImage v).length = OLED_WIDTH * OLED_HEIGHT / 8 + 1 ∧
    (displayHexImage v).length = 1025 ∧
    (displayHexImage v).byte 0 = 0x40 ∧
    (displayHexImageTransfers v).length = 1 ∧
    (displayHexImageTransfers v).head? = some ⟨(displayHexImage v).byte, (displayHexImage v).length⟩ := by
  refine ⟨rfl, rfl, ?_, rfl, rfl, displayHexImage_length v, ?_, ?_, rfl, rfl⟩
  · rw [drawPixel_byte, if_neg (Nat.pos_iff_ne_zero.mp (pixelByteIndex_pos x y)).symm]
    rfl
  · rw [displayHexImage_length]; rfl
  · rw [displayHexImage_byte, if_neg (by omega)]
    rfl

/-- C3: for every 8-bit value `v`, `displayHexImage v` sets every data byte
(indices 1 through 1024, all bytes after the command byte) to `v`. -/
theorem displayHexImage_fills_every_data_byte (v i : Nat)
    (hv : v < 256) (h1 : 1 ≤ i) (h2 : i ≤ 1024) :
    (displayHexImage v).byte i = v := by
  rw [displayHexImage_byte, if_pos ⟨h1, h2⟩]
  exact Nat.mod_eq_of_lt hv

/-- Witness for C3: after `displayHexImage 0xFF` the first data byte reads
`0xFF`, and after `displayHexImage 0x00` the last data byte reads `0x00`. -/
theorem displayHexImage_fills_every_data_byte_witness :
    (displayHexImage 0xFF).byte 1 = 0xFF ∧ (displayHexImage 0x00).byte 1024 = 0x00 :=
  ⟨displayHexImage_fills_every_data_byte 0xFF 1 (by decide) (by decide) (by decide),
   displayHexImage_fills_every_data_byte 0x00 1024 (by decide) (by decide) (by decide)⟩

/-- Decoding a transmitted buffer back to pixels under the spec §3 mapping:
pixel `(x, y)` is bit `x & 7` of the byte at index
`1 + x + (y >> 3) * width`. -/
def decodePixel (b : ManagedBuffer) (x y : Nat) : Bool :=
  (b.byte (1 + x + (y >>> 3) * OLED_WIDTH)).testBit (x &&& 7)

/-- C4: round trip — encoding with `displayHexImage 0xFF` and decoding the
data bytes under the §3 pixel-to-bit mapping yields the all-on pattern:
every in-range pixel reads back as set. -/
theorem fillUniform_0xFF_decodes_all_on (x y : Nat)
    (hx : x < OLED_WIDTH) (hy : y < OLED_HEIGHT) :
    decodePixel (displayHexImage 0xFF) x y = true := by
  unfold decodePixel
  have hidx : 1 + x + (y >>> 3) * OLED_WIDTH = pixelByteIndex x y := by
    unfold pixelByteIndex; omega
  rw [hidx, displayHexImage_byte,
    if_pos ⟨pixelByteIndex_pos x y, pixelByteIndex_le x y hx hy⟩]
  have hlt : x &&& 7 < 8 := Nat.lt_of_le_of_lt Nat.and_le_right (by decide)
  have h255 : (0xFF : Nat) % 256 = 2 ^ 8 - 1 := by decide
  rw [h255, Nat.testBit_two_pow_sub_one]
  exact decide_eq_true hlt

/-- Witness for C4 at pixel `(0, 0)` (and at the far corner `(127, 63)`). -/
theorem fillUniform_0xFF_decodes_all_on_witness :
    decodePixel (displayHexImage 0xFF) 0 0 = true ∧
    decodePixel (displayHexImage 0xFF) 127 63 = true :=
  ⟨fillUniform_0xFF_decodes_all_on 0 0 (by decide) (by decide),
   fillUniform_0xFF_decodes_all_on 127 63 (by decide) (by decide)⟩

/-- C5 counterexample: the claim says an out-of-range `x` makes `setPixel`
fail with `OutOfRange` and write nothing.  At `x = 200` (not in
`[0, OLED_WIDTH)`), `y = 0`, the code has no error path and does write: the
data byte at index `200 + 0 + 1 = 201` becomes `1 << (200 & 7) = 1`,
changing the buffer. -/
theorem drawPixel_out_of_range_writes_anyway :
    OLED_WIDTH ≤ 200 ∧
    (drawPixel 200 0).byte 201 = 1 ∧
    (ManagedBuffer.create (OLED_WIDTH * OLED_HEIGHT / 8 + 1)).byte 201 = 0 := by
  refine ⟨by decide, ?_, rfl⟩
  rw [drawPixel_byte]
  decide

/-- C5 amended: `drawPixel` performs no bounds check at all: for every `x`
and `y`, in range or not, it unconditionally ORs bit `x & 7` into the byte
at index `x + (y >> 3) * OLED_WIDTH + 1` of the freshly built buffer —
there is no `OutOfRange` path, and callers must guarantee range. -/
theorem drawPixel_writes_unconditionally (x y : Nat) :
    ((drawPixel x y).byte (pixelByteIndex x y)).testBit (x &&& 7) = true := by
  rw [drawPixel_byte, if_pos rfl]
  exact Nat.testBit_two_pow_self

/-- The busy loop of `waitButtonPress` (src/main.cpp lines 102-105),
`while (!uBit.buttonA.isPressed()) {}`, as a step function over the stream
of poll results: `polls n` is what the `n`-th call to
`uBit.buttonA.isPressed()` returns.  `fuel` bounds the number of observed
iterations; the loop body is empty (no yield, timeout, or debounce), so
each step only advances to the next poll. -/
def waitButtonPress (polls : Nat → Bool) : Nat → Nat → Option Nat
  | 0, _ => none
  | fuel + 1, n => if polls n then some n else waitButtonPress polls fuel (n + 1)

lemma waitButtonPress_some (polls : Nat → Bool) :
    ∀ fuel n k, waitButtonPress polls fuel n = some k →
      polls k = true ∧ n ≤ k ∧ ∀ j, n ≤ j → j < k → polls j = false := by
  intro fuel
  induction fuel with
  | zero => intro n k h; simp [waitButtonPress] at h
  | succ fuel ih =>
    intro n k h
    rw [waitButtonPress] at h
    by_cases hp : polls n = true
    · rw [if_pos hp] at h
      obtain rfl : n = k := by simpa using h
      exact ⟨hp, Nat.le_refl n, fun j hj1 hj2 => absurd hj1 (by omega)⟩
    · rw [if_neg hp] at h
      obtain ⟨h1, h2, h3⟩ := ih (n + 1) k h
      refine ⟨h1, by omega, fun j hj1 hj2 => ?_⟩
      by_cases hjn : j = n
      · subst hjn; simpa using hp
      · exact h3 j (by omega) hj2

lemma waitButtonPress_none (polls : Nat → Bool) (hall : ∀ j, polls j = false) :
    ∀ fuel n, waitButtonPress polls fuel n = none := by
  intro fuel
  induction fuel with
  | zero => intro n; rfl
  | succ fuel ih =>
    intro n
    rw [waitButtonPress, hall n]
    simpa using ih (n + 1)

/-- C6: the wait loop never proceeds while the button reads unpressed.  A
`false` poll only advances to the next poll; a `true` poll returns at once;
whenever the loop returns after poll `k`, that poll read `true` and every
earlier poll read `false`; and if every poll reads `false` the loop never
returns, whatever the fuel (no timeout). -/
theorem waitButtonPress_blocks_until_pressed (polls : Nat → Bool) (fuel n : Nat) :
    (polls n = false → waitButtonPress polls (fuel + 1) n = waitButtonPress polls fuel (n + 1)) ∧
    (polls n = true → waitButtonPress polls (fuel + 1) n = some n) ∧
    (∀ k, waitButtonPress polls fuel n = some k →
      polls k = true ∧ n ≤ k ∧ ∀ j, n ≤ j → j < k → polls j = false) ∧
    ((∀ j, polls j = false) → waitButtonPress polls fuel n = none) := by
  refine ⟨fun hp => ?_, fun hp => ?_, waitButtonPress_some polls fuel n, fun hall => waitButtonPress_none polls hall fuel n⟩
  · rw [waitButtonPress, hp]; rfl
  · rw [waitButtonPress, hp]; rfl

/-- A concrete poll stream for the C6 witness: the button reads pressed
from the third poll (index 2) on. -/
def pollsAfterTwo (j : Nat) : Bool :=
  decide (2 ≤ j)

/-- Witness for C6 on `pollsAfterTwo`: a `true` poll at index 2 returns
immediately, and a run from index 0 returns at 2 with both earlier polls
`false`. -/
theorem waitButtonPress_blocks_until_pressed_witness :
    waitButtonPress pollsAfterTwo 10 2 = some 2 ∧
    (pollsAfterTwo 2 = true ∧ 0 ≤ 2 ∧ ∀ j, 0 ≤ j → j < 2 → pollsAfterTwo j = false) :=
  ⟨(waitButtonPress_blocks_until_pressed pollsAfterTwo 9 2).2.1 (by decide),
   (waitButtonPress_blocks_until_pressed pollsAfterTwo 10 0).2.2.1 2 (by decide)⟩

/-- The two digital-out pins used as LEDs: P0 (red) and P2 (green). -/
structure PinState where
  p0 : Nat
  p2 : Nat

/-- `uBit.io.P0.setDigitalValue(v)`. -/
def setDigitalValueP0 (s : PinState) (v : Nat) : PinState :=
  ⟨v, s.p2⟩

/-- `uBit.io.P2.setDigitalValue(v)`. -/
def setDigitalValueP2 (s : PinState) (v : Nat) : PinState :=
  ⟨s.p0, v⟩

/-- `clearLEDs` (src/main.cpp lines 110-113): writes 0 to P0 then to P2. -/
def clearLEDs (s : PinState) : PinState :=
  setDigitalValueP2 (setDigitalValueP0 s 0) 0

/-- `handleButtonPress` (src/main.cpp lines 152-164) with the measured
reaction time passed in: sets P2 high when `reactionTime <= AVG_RTIME`,
else P0 high; scrolls the time (display only); adds the reaction time to
the running total; then calls `clearLEDs`.  Returns the pin state and the
updated total. -/
def handleButtonPress (reactionTime : Nat) (s : PinState) (totalReactionTime : Nat) :
    PinState × Nat :=
  let s := if reactionTime ≤ AVG_RTIME then setDigitalValueP2 s 1 else setDigitalValueP0 s 1
  let totalReactionTime := totalReactionTime + reactionTime
  (clearLEDs s, totalReactionTime)

/-- `performReactionRound` (src/main.cpp lines 176-184) restricted to its
pin/total effects: only `handleButtonPress` touches the pins or the total
(the pattern display, timer read, wait and screen clear do not). -/
def performReactionRound (reactionTime : Nat) (s : PinState) (totalReactionTime : Nat) :
    PinState × Nat :=
  handleButtonPress reactionTime s totalReactionTime

/-- The `for (int round = 1; round <= NUM_ROUNDS; ++round)` loop of
`runGame`, unrolled by remaining iteration count; `rt round` is the
reaction time the environment produces in round `round`. -/
def runGameLoop (rt : Nat → Nat) (s : PinState) (totalReactionTime round : Nat) :
    Nat → PinState × Nat
  | 0 => (s, totalReactionTime)
  | n + 1 =>
    let r := performReactionRound (rt round) s totalReactionTime
    runGameLoop rt r.1 r.2 (round + 1) n

/-- `runGame` (src/main.cpp lines 210-218): the total starts at 0 and the
round loop runs for `round = 1` to `NUM_ROUNDS`. -/
def runGame (rt : Nat → Nat) (s : PinState) : PinState × Nat :=
  runGameLoop rt s 0 1 NUM_ROUNDS

/-- `displayMean` (src/main.cpp lines 194-202): the reported mean is the
total divided by `NUM_ROUNDS` in integer division. -/
def displayMean (totalReactionTime : Nat) : Nat :=
  totalReactionTime / NUM_ROUNDS

/-- C7: `runGame` performs exactly `NUM_ROUNDS = 4` rounds, the total
starts at 0 and accumulates each round's reaction time, and the reported
average is that total divided by `NUM_ROUNDS` in integer division. -/
theorem runGame_four_rounds_total_and_mean (rt : Nat → Nat) (s : PinState) :
    NUM_ROUNDS = 4 ∧
    (runGame rt s).2 = rt 1 + rt 2 + rt 3 + rt 4 ∧
    displayMean (runGame rt s).2 = (rt 1 + rt 2 + rt 3 + rt 4) / NUM_ROUNDS := by
  have htot : (runGame rt s).2 = rt 1 + rt 2 + rt 3 + rt 4 := by
    simp [runGame, NUM_ROUNDS, runGameLoop, performReactionRound, handleButtonPress]
  exact ⟨rfl, htot, by rw [htot]; rfl⟩

/-- C9: both LED pins are 0 whenever `handleButtonPress` returns — whichever
branch raised a pin (P2 when the reaction time is at most `AVG_RTIME`, P0
otherwise), `clearLEDs` lowers both before returning — hence every round's
pin effect ends with both LEDs off, and after all of `runGame` both are
off. -/
theorem handleButtonPress_ends_with_LEDs_off
    (reactionTime totalReactionTime : Nat) (s : PinState) (rt : Nat → Nat) :
    (handleButtonPress reactionTime s totalReactionTime).1.p0 = 0 ∧
    (handleButtonPress reactionTime s totalReactionTime).1.p2 = 0 ∧
    (performReactionRound reactionTime s totalReactionTime).1.p0 = 0 ∧
    (performReactionRound reactionTime s totalReactionTime).1.p2 = 0 ∧
    (runGame rt s).1.p0 = 0 ∧ (runGame rt s).1.p2 = 0 :=
  ⟨rfl, rfl, rfl, rfl, rfl, rfl⟩

/-- `getRandCoordinate` (src/main.cpp lines 94-96): `rand() % 50 + 1`,
with `r` the non-negative value returned by `rand()`. -/
def getRandCoordinate (r : Nat) : Nat :=
  r % 50 + 1

/-- C8: for coordinates actually passed to `drawPixel` — both produced by
`getRandCoordinate`, hence in `[1, 50]` — the computed byte index
`x + (y >> 3) * OLED_WIDTH + 1` is strictly positive and at most 1024, so
the write stays inside the 1025-byte buffer and the command byte at index 0
is untouched. -/
theorem drawPixel_random_coordinates_stay_in_buffer (r1 r2 : Nat) :
    1 ≤ getRandCoordinate r1 ∧ getRandCoordinate r1 ≤ 50 ∧
    1 ≤ getRandCoordinate r2 ∧ getRandCoordinate r2 ≤ 50 ∧
    0 < pixelByteIndex (getRandCoordinate r1) (getRandCoordinate r2) ∧
    pixelByteIndex (getRandCoordinate r1) (getRandCoordinate r2) ≤ 1024 ∧
    (drawPixel (getRandCoordinate r1) (getRandCoordinate r2)).byte 0 = 0x40 := by
  refine ⟨by unfold getRandCoordinate; omega, by unfold getRandCoordinate; omega,
    by unfold getRandCoordinate; omega, by unfold getRandCoordinate; omega,
    pixelByteIndex_pos _ _, ?_, ?_⟩
  · unfold pixelByteIndex getRandCoordinate OLED_WIDTH
    rw [Nat.shiftRight_eq_div_pow]
    omega
  · rw [drawPixel_byte,
      if_neg (Nat.pos_iff_ne_zero.mp (pixelByteIndex_pos _ _)).symm]
    rfl

/-- Events of `displayRandomPattern` that affect timing or the OLED, in
program order. -/
inductive DisplayEvent where
  | sleep (ms : Nat) : DisplayEvent
  | sleepArg : DisplayEvent
  | showAll (v : Nat) : DisplayEvent
  | showPixel (x y : Nat) : DisplayEvent
  deriving DecidableEq

/-- `randDelay` (src/main.cpp lines 85-88): the number of milliseconds
passed to `uBit.sleep`, namely `(rand() % 5 + 1) * 1000` where `r` is the
non-negative value returned by `rand()`. -/
def randDelay (r : Nat) : Nat :=
  (r % 5 + 1) * 1000

/-- Whether a display event shows the stimulus (all pixels on, or the
single random pixel). -/
def isStimulus : DisplayEvent → Bool
  | DisplayEvent.showAll _ => true
  | DisplayEvent.showPixel _ _ => true
  | _ => false

/-- `displayRandomPattern` (src/main.cpp lines 129-140) as its event trace:
the `randDelay()` sleep; then line 131's `uBit.sleep(randDelay)`, which
passes the function `randDelay` itself (not a call) as the argument —
modelled as an opaque extra sleep event; then the stimulus — all pixels on
(`displayHexImage 0xFF`) in rounds up to `NUM_ROUNDS / 2`, else one random
pixel via `drawPixel`. -/
def displayRandomPattern (r rx ry round : Nat) : List DisplayEvent :=
  [DisplayEvent.sleep (randDelay r), DisplayEvent.sleepArg] ++
    (if round ≤ NUM_ROUNDS / 2 then [DisplayEvent.showAll 0xFF]
     else [DisplayEvent.showPixel (getRandCoordinate rx) (getRandCoordinate ry)])

/-- C10: for every value returned by `rand()`, `randDelay` sleeps exactly
`(r % 5 + 1) * 1000` milliseconds — a multiple of 1000 between 1000 and
5000 inclusive — and in every round's `displayRandomPattern` trace the
`randDelay` sleep is the first event, no stimulus precedes it, and a
stimulus follows it. -/
theorem randDelay_exact_multiple_before_stimulus (r rx ry round : Nat) :
    randDelay r % 1000 = 0 ∧ 1000 ≤ randDelay r ∧ randDelay r ≤ 5000 ∧
    (displayRandomPattern r rx ry round).head? = some (DisplayEvent.sleep (randDelay r)) ∧
    ((displayRandomPattern r rx ry round).take 2).any isStimulus = false ∧
    ((displayRandomPattern r rx ry round).drop 2).any isStimulus = true := by
  unfold randDelay displayRandomPattern
  refine ⟨by omega, by omega, by omega, rfl, ?_, ?_⟩
  · split_ifs <;> rfl
  · split_ifs <;> rfl

end MicroBitReaction
